import Mathlib

/-!
Verification of the rs-peer-workspace proxy and server RPC layer.

The proxy (rs-peer-workspace-proxy/src/main.rs) is embedded as a pure
transition function over an explicit registry state.  The per-connection
handler `handle_socket` is a loop over incoming text frames; its body is
transcribed as `handleText`, taking the connection's local phase (the
`role` / `server_name` local variables), the shared registry, and one
incoming frame, and returning the new phase, the new registry, and the
list of (target connection, message) send attempts made through
`send_to_connection`.  The cleanup path `cleanup_connection` is
transcribed as a pure function returning the new registry and the
notification list that the code sends after releasing the lock.

UUIDs are modelled as naturals; `Uuid::new_v4` results are passed in as
explicit fresh-identifier arguments.  `HashMap` fields are modelled as
association lists with the usual find/insert/erase operations; the
`connections` map's values (unbounded channel senders) are opaque
handles, so only its key set is modelled.
-/

namespace RsPeerWorkspace

/-- Lookup in an association list, the shallow model of `HashMap::get`. -/
def hmFind {α β : Type} [DecidableEq α] : List (α × β) → α → Option β
  | [], _ => none
  | (k, v) :: rest, a => if k = a then some v else hmFind rest a

/-- Erase a key, the shallow model of `HashMap::remove`'s state effect. -/
def hmErase {α β : Type} [DecidableEq α] (m : List (α × β)) (a : α) : List (α × β) :=
  m.filter (fun p => p.1 ≠ a)

/-- Insert (replacing any previous binding), the model of `HashMap::insert`. -/
def hmInsert {α β : Type} [DecidableEq α] (m : List (α × β)) (a : α) (b : β) : List (α × β) :=
  (a, b) :: hmErase m a

/-- Key list, the model of `HashMap::keys().cloned().collect()`. -/
def hmKeys {α β : Type} (m : List (α × β)) : List α :=
  m.map Prod.fst

/-- Add a connection id to the key set of the connections map
(`state.connections.insert(conn_id, outgoing_tx)`). -/
def connInsert (l : List Nat) (c : Nat) : List Nat :=
  if c ∈ l then l else c :: l

/-- Remove a connection id (`locked.connections.remove(&conn_id)`). -/
def connErase (l : List Nat) (c : Nat) : List Nat :=
  l.filter (fun x => x ≠ c)

/-- `AuthRole` from rs-peer-workspace-proxy/src/main.rs. -/
inductive AuthRole where
  | server
  | client
deriving DecidableEq

/-- `SignalPayload` from rs-peer-workspace-shared/src/relay.rs: the
signaling payloads of the shared wire schema. -/
inductive SignalPayload where
  | sdpOffer (sdp : String)
  | sdpAnswer (sdp : String)
  | iceCandidate (candidate : String) (sdpMid : Option String) (sdpMlineIndex : Option Nat)
deriving DecidableEq

/-- `ClientToProxy` from rs-peer-workspace-proxy/src/main.rs: the
messages the proxy can parse from a peer in the client-facing direction.
Note this local enum has no `relay_data` and no `signal` variant. -/
inductive ClientToProxy where
  | authProxy (proxyPassword : String) (role : AuthRole)
  | registerServer (serverName : String) (serverPassword : String)
  | listServers
  | connectServer (serverName : String) (serverPassword : String) (useP2p : Bool)
  | clientCommand (sessionId : Nat) (command : String)
  | disconnectSession (sessionId : Nat)
deriving DecidableEq

/-- `ServerToProxy` from rs-peer-workspace-proxy/src/main.rs.  Note this
local enum has no `relay_data` and no `server_signal` variant. -/
inductive ServerToProxy where
  | commandOutput (sessionId : Nat) (outputText : String) (done : Bool)
  | serverDisconnectSession (sessionId : Nat)
deriving DecidableEq

/-- `TurnCredentials` from rs-peer-workspace-proxy/src/main.rs. -/
structure TurnCredentials where
  url : String
  username : String
  password : String
deriving DecidableEq

/-- `ProxyToPeer` from rs-peer-workspace-proxy/src/main.rs: everything
the proxy can emit.  Note there is no `peer_signal` and no `relay_data`
variant in the proxy's outbound enum. -/
inductive ProxyToPeer where
  | authOk (role : AuthRole)
  | authError (reason : String)
  | registered (serverName : String)
  | serversList (servers : List String)
  | connected (sessionId : Nat) (serverName : String) (viaP2p : Bool)
      (turn : Option TurnCredentials)
  | connectionError (reason : String)
  | clientConnected (sessionId : Nat) (clientId : Nat)
  | runCommand (sessionId : Nat) (command : String)
  | outputMsg (sessionId : Nat) (outputText : String) (done : Bool)
  | sessionClosed (sessionId : Nat) (reason : String)
deriving DecidableEq

/-- `ServerRegistration` from rs-peer-workspace-proxy/src/main.rs. -/
structure ServerRegistration where
  conn_id : Nat
  server_password : String
deriving DecidableEq

/-- `Session` from rs-peer-workspace-proxy/src/main.rs. -/
structure Session where
  session_id : Nat
  server_conn_id : Nat
  client_conn_id : Nat
deriving DecidableEq

/-- `ProxyState` from rs-peer-workspace-proxy/src/main.rs: the shared
registry behind the mutex.  `connections` keeps only the key set; its
values are opaque channel senders. -/
structure ProxyState where
  connections : List Nat
  conn_roles : List (Nat × AuthRole)
  servers : List (String × ServerRegistration)
  sessions : List (Nat × Session)
deriving DecidableEq

/-- `ProxyState::new()`. -/
def ProxyState.new : ProxyState :=
  { connections := [], conn_roles := [], servers := [], sessions := [] }

/-- The configuration part of `AppState`: the proxy password and the
TURN credentials built in `main` from the CLI arguments. -/
structure AppCfg where
  proxy_password : String
  turn : TurnCredentials
deriving DecidableEq

/-- Default of the `--turn-url` argument (`Args` in main.rs). -/
def defaultTurnUrl : String := "turn:coturn:3478"

/-- Default of the `--turn-username` argument. -/
def defaultTurnUsername : String := "peer"

/-- Default of the `--turn-password` argument. -/
def defaultTurnPassword : String := "peer-secret"

/-- The TURN credentials `main` builds from the parsed arguments.  Each
CLI flag is modelled as `Option String` (`none` = flag absent, in which
case clap substitutes the declared default value); the `turn_url`
argument is a plain `String` with a default, so it always has a value. -/
def turnFromArgs (turnUrlArg turnUsernameArg turnPasswordArg : Option String) :
    TurnCredentials :=
  { url := turnUrlArg.getD defaultTurnUrl
    username := turnUsernameArg.getD defaultTurnUsername
    password := turnPasswordArg.getD defaultTurnPassword }

/-- The per-connection control state of `handle_socket`: `unauth` is
`role == None`; `serverUnregistered` is `role == Some(Server)` with
`server_name == None`; `serverActive name` has `server_name == Some(name)`;
`clientActive` is `role == Some(Client)`; `terminal` means the loop was
exited with `break` (after which the socket is dropped and
`cleanup_connection` runs). -/
inductive ConnPhase where
  | unauth
  | serverUnregistered
  | serverActive (serverName : String)
  | clientActive
  | terminal
deriving DecidableEq

/-- An incoming text frame as the proxy sees it.  `cmsg` / `smsg` are
texts whose `type` tag matches a variant of the proxy's local
`ClientToProxy` / `ServerToProxy` enums (the two tag sets are disjoint).
`relayData`, `signalMsg` and `serverSignal` are well-formed messages of
the shared wire schema (rs-peer-workspace-shared/src/relay.rs) whose
tags `relay_data`, `signal` and `server_signal` match no variant of the
proxy's enums, so `serde_json::from_str` fails on them for both enums.
`malformed` is any other unparseable text. -/
inductive InText where
  | cmsg (m : ClientToProxy)
  | smsg (m : ServerToProxy)
  | relayData (sessionId : Nat) (payload : List Nat)
  | signalMsg (sessionId : Nat) (signal : SignalPayload)
  | serverSignal (sessionId : Nat) (signal : SignalPayload)
  | malformed
deriving DecidableEq

/-- Outcome of `serde_json::from_str::<ClientToProxy>(&text)`. -/
def parseClientToProxy : InText → Option ClientToProxy
  | .cmsg m => some m
  | _ => none

/-- Outcome of `serde_json::from_str::<ServerToProxy>(&text)`. -/
def parseServerToProxy : InText → Option ServerToProxy
  | .smsg m => some m
  | _ => none

/-- The phase a connection enters right after `auth_ok` for `role`. -/
def rolePhase : AuthRole → ConnPhase
  | .server => .serverUnregistered
  | .client => .clientActive

/-- One iteration of the `handle_socket` message loop for connection `c`
on an incoming text frame, transcribed from
rs-peer-workspace-proxy/src/main.rs lines 216-525.  `freshSid` stands
for the `Uuid::new_v4()` drawn in the `ConnectServer` arm.  The result
is the new phase, the new registry, and the `send_to_connection`
attempts `(target, message)` in program order. -/
def handleText (app : AppCfg) (c : Nat) (freshSid : Nat) (phase : ConnPhase)
    (st : ProxyState) (t : InText) :
    ConnPhase × ProxyState × List (Nat × ProxyToPeer) :=
  match phase with
  | .unauth =>
    match parseClientToProxy t with
    | some (.authProxy pw r) =>
      if pw ≠ app.proxy_password then
        (.terminal, st, [(c, .authError "invalid proxy password")])
      else
        (rolePhase r, { st with conn_roles := hmInsert st.conn_roles c r },
          [(c, .authOk r)])
    | _ => (.terminal, st, [(c, .authError "first message must be auth_proxy")])
  | .serverUnregistered =>
    match parseClientToProxy t with
    | some (.registerServer name pw) =>
      if (hmFind st.servers name).isSome then
        (.terminal, st, [(c, .connectionError "server name already registered")])
      else
        (.serverActive name,
          { st with servers := hmInsert st.servers name ⟨c, pw⟩ },
          [(c, .registered name)])
    | _ =>
      (.terminal, st, [(c, .connectionError "server must register before other actions")])
  | .serverActive name =>
    match parseServerToProxy t with
    | some (.commandOutput sid out done) =>
      match hmFind st.sessions sid with
      | some sess => (.serverActive name, st, [(sess.client_conn_id, .outputMsg sid out done)])
      | none => (.serverActive name, st, [])
    | some (.serverDisconnectSession sid) =>
      match hmFind st.sessions sid with
      | some sess =>
        (.serverActive name, { st with sessions := hmErase st.sessions sid },
          [(sess.client_conn_id, .sessionClosed sid "server closed session")])
      | none => (.serverActive name, st, [])
    | none => (.serverActive name, st, [])
  | .clientActive =>
    match parseClientToProxy t with
    | some .listServers => (.clientActive, st, [(c, .serversList (hmKeys st.servers))])
    | some (.connectServer name pw useP2p) =>
      match hmFind st.servers name with
      | some server =>
        if server.server_password ≠ pw then
          (.clientActive, st, [(c, .connectionError "invalid server password")])
        else
          (.clientActive,
            { st with sessions :=
                hmInsert st.sessions freshSid ⟨freshSid, server.conn_id, c⟩ },
            [(c, .connected freshSid name useP2p (if useP2p then some app.turn else none)),
              (server.conn_id, .clientConnected freshSid c)])
      | none => (.clientActive, st, [(c, .connectionError "unknown server name")])
    | some (.clientCommand sid cmd) =>
      match hmFind st.sessions sid with
      | some sess =>
        if sess.client_conn_id = c then
          (.clientActive, st, [(sess.server_conn_id, .runCommand sid cmd)])
        else
          (.clientActive, st, [])
      | none => (.clientActive, st, [])
    | some (.disconnectSession sid) =>
      match hmFind st.sessions sid with
      | some sess =>
        if sess.client_conn_id = c then
          (.clientActive, { st with sessions := hmErase st.sessions sid },
            [(sess.server_conn_id, .sessionClosed sid "client closed session")])
        else
          (.clientActive, { st with sessions := hmErase st.sessions sid }, [])
      | none => (.clientActive, st, [])
    | some (.authProxy _ _) => (.clientActive, st, [])
    | some (.registerServer _ _) => (.clientActive, st, [])
    | none => (.clientActive, st, [])
  | .terminal => (.terminal, st, [])

/-- The notification built for one removed session in
`cleanup_connection`. -/
def cleanupNote (c : Nat) (sid : Nat) (sess : Session) : Nat × ProxyToPeer :=
  if sess.server_conn_id = c then
    (sess.client_conn_id, .sessionClosed sid "server disconnected")
  else
    (sess.server_conn_id, .sessionClosed sid "client disconnected")

/-- One iteration of the removal loop of `cleanup_connection`
(`if let Some(session) = locked.sessions.remove(&session_id)`). -/
def cleanupStep (c : Nat) (acc : ProxyState × List (Nat × ProxyToPeer)) (sid : Nat) :
    ProxyState × List (Nat × ProxyToPeer) :=
  match hmFind acc.1.sessions sid with
  | some sess =>
    ({ acc.1 with sessions := hmErase acc.1.sessions sid },
      acc.2 ++ [cleanupNote c sid sess])
  | none => acc

/-- `cleanup_connection` from rs-peer-workspace-proxy/src/main.rs lines
549-598, transcribed as a pure function.  The whole computation happens
in one critical section of the registry mutex; the returned notification
list is what the caller sends after the lock is released. -/
def cleanup_connection (st : ProxyState) (c : Nat) (serverName : Option String) :
    ProxyState × List (Nat × ProxyToPeer) :=
  let st1 : ProxyState :=
    { st with connections := connErase st.connections c
              conn_roles := hmErase st.conn_roles c }
  let st2 : ProxyState :=
    match serverName with
    | some name => { st1 with servers := hmErase st1.servers name }
    | none => st1
  let affectedSessions : List Nat :=
    (st2.sessions.filter
      (fun p => p.2.server_conn_id = c || p.2.client_conn_id = c)).map
      (fun p => p.2.session_id)
  affectedSessions.foldl (cleanupStep c) (st2, [])

/-- `DirectoryEntry` from rs-peer-workspace-shared/src/app.rs. -/
structure DirectoryEntry where
  name : String
  path : String
  is_dir : Bool
deriving DecidableEq

/-- `RpcAction` from rs-peer-workspace-shared/src/app.rs. -/
inductive RpcAction where
  | runCommand (command : String)
  | listRoots
  | listDirectory (path : String)
  | readFile (path : String)
  | writeFile (path : String) (content : String)
deriving DecidableEq

/-- `RpcRequest` from rs-peer-workspace-shared/src/app.rs. -/
structure RpcRequest where
  request_id : Nat
  action : RpcAction
deriving DecidableEq

/-- `RpcResult` from rs-peer-workspace-shared/src/app.rs. -/
inductive RpcResult where
  | commandOutput (outputText : String)
  | roots (roots : List String)
  | directoryEntries (path : String) (entries : List DirectoryEntry)
  | fileContent (path : String) (content : String)
  | writeComplete (path : String)
  | error (message : String)
deriving DecidableEq

/-- `RpcResponse` from rs-peer-workspace-shared/src/app.rs. -/
structure RpcResponse where
  request_id : Nat
  result : RpcResult
deriving DecidableEq

/-- Oracle for the effectful calls in rs-peer-workspace-server/src/rpc.rs:
each field gives the outcome of one OS interaction, with `Except.error`
carrying the error's display string.  `runCmd` returns the lossy-decoded
(stdout, stderr) pair of a completed child, or the spawn error.
`readDir` returns the fully traversed entry list (name, path, is_dir per
entry); a failure of `read_dir`, `next_entry` or `metadata` anywhere in
the traversal is its `Except.error` case.  `parentDir` is
`Path::new(path).parent()`. -/
structure FsWorld where
  runCmd : String → Except String (String × String)
  readToString : String → Except String String
  readDir : String → Except String (List DirectoryEntry)
  createDirAll : String → Except String Unit
  writeFs : String → String → Except String Unit
  parentDir : String → Option String

/-- `execute_command` from rs-peer-workspace-server/src/rpc.rs (non-
Windows branch): combine non-empty stdout and stderr, substitute
"<no output>" when both are empty, and map a spawn failure to an error
string. -/
def execute_command (w : FsWorld) (command : String) : String :=
  match w.runCmd command with
  | .ok (out, err) =>
    let combined := (if out ≠ "" then out else "") ++ (if err ≠ "" then err else "")
    if combined = "" then "<no output>" else combined
  | .error err => "command execution failed: " ++ err

/-- `list_roots` from rs-peer-workspace-server/src/rpc.rs (non-Windows
branch): always succeeds with the single root "/". -/
def list_roots : Except String (List String) :=
  .ok ["/"]

/-- The comparator of `list_directory`'s `sort_by`: directories first
(`is_dir` compared reversed), then case-insensitive name order. -/
def entryLe (a b : DirectoryEntry) : Bool :=
  if a.is_dir ≠ b.is_dir then a.is_dir
  else !(decide (b.name.toLower < a.name.toLower))

/-- Insertion step of the stable sort used to model `sort_by`. -/
def insertEntry (e : DirectoryEntry) : List DirectoryEntry → List DirectoryEntry
  | [] => [e]
  | x :: xs => if entryLe e x then e :: x :: xs else x :: insertEntry e xs

/-- The entry ordering applied by `list_directory` (`sort_by` with
directories first, then lowercase name). -/
def sortEntries (l : List DirectoryEntry) : List DirectoryEntry :=
  l.foldr insertEntry []

/-- `list_directory` from rs-peer-workspace-server/src/rpc.rs: traverse
the directory (any I/O failure propagates via `?`) and sort the entries. -/
def list_directory (w : FsWorld) (path : String) : Except String (List DirectoryEntry) :=
  match w.readDir path with
  | .ok entries => .ok (sortEntries entries)
  | .error e => .error e

/-- The `WriteFile` arm's inner async block: create the parent directory
chain when the path has a parent, then write, short-circuiting on error. -/
def writeFileResult (w : FsWorld) (path : String) (content : String) :
    Except String Unit :=
  match w.parentDir path with
  | some parent =>
    match w.createDirAll parent with
    | .ok _ => w.writeFs path content
    | .error e => .error e
  | none => w.writeFs path content

/-- `handle_rpc` from rs-peer-workspace-server/src/rpc.rs: dispatch on
the action, map every operational failure into `RpcResult.error` (or the
error string inside `CommandOutput` for `RunCommand`), and answer with
the request's own `request_id`. -/
def handle_rpc (w : FsWorld) (request : RpcRequest) : RpcResponse :=
  let result :=
    match request.action with
    | .runCommand command => RpcResult.commandOutput (execute_command w command)
    | .listRoots =>
      match list_roots with
      | .ok roots => RpcResult.roots roots
      | .error err => RpcResult.error err
    | .listDirectory path =>
      match list_directory w path with
      | .ok entries => RpcResult.directoryEntries path entries
      | .error err => RpcResult.error err
    | .readFile path =>
      match w.readToString path with
      | .ok content => RpcResult.fileContent path content
      | .error err => RpcResult.error err
    | .writeFile path content =>
      match writeFileResult w path content with
      | .ok _ => RpcResult.writeComplete path
      | .error err => RpcResult.error err
  { request_id := request.request_id, result := result }

/-- The precondition under which `handle_socket` calls
`cleanup_connection st c serverName`: the handler's `server_name` local
names every registration owned by `c`.  It holds because a registration
with `conn_id = c` is only ever inserted by `c`'s own `RegisterServer`
arm (which then sets `server_name` and never registers again), and only
`c`'s own cleanup removes it. -/
def CleanupNameOk (st : ProxyState) (c : Nat) (serverName : Option String) : Prop :=
  ∀ name reg, hmFind st.servers name = some reg → reg.conn_id = c →
    serverName = some name

/-- Registry states reachable through the proxy's handlers.  `attach` is
the `state.connections.insert(conn_id, outgoing_tx)` done on socket
accept; `msg` is one loop iteration of `handle_socket` for a connection
`c` (which runs only between `c`'s attach and its cleanup, so
`c ∈ st.connections`); `cleanup` is the `cleanup_connection` call in the
handler epilogue. -/
inductive Reach : ProxyState → Prop where
  | init : Reach ProxyState.new
  | attach (c : Nat) {st : ProxyState} : Reach st →
      Reach { st with connections := connInsert st.connections c }
  | msg (app : AppCfg) (c freshSid : Nat) (phase : ConnPhase) (t : InText)
      {st : ProxyState} : Reach st → c ∈ st.connections →
      Reach (handleText app c freshSid phase st t).2.1
  | cleanup (c : Nat) (serverName : Option String) {st : ProxyState} :
      Reach st → CleanupNameOk st c serverName →
      Reach (cleanup_connection st c serverName).1

/-- Sessions are keyed by their own `session_id` field (inserts use the
freshly drawn id both as map key and as the `session_id` field). -/
def SessionsKeyed (st : ProxyState) : Prop :=
  ∀ k sess, hmFind st.sessions k = some sess → sess.session_id = k

/-- The registry invariant: session keys are distinct, sessions are
keyed by id, every registration is owned by a live connection, and both
endpoints of every session are live connections. -/
def RegistryInv (st : ProxyState) : Prop :=
  (st.sessions.map Prod.fst).Nodup ∧
  SessionsKeyed st ∧
  (∀ name reg, hmFind st.servers name = some reg → reg.conn_id ∈ st.connections) ∧
  (∀ sid sess, hmFind st.sessions sid = some sess →
    sess.server_conn_id ∈ st.connections ∧ sess.client_conn_id ∈ st.connections)

/-- Whether a session has connection `c` as one of its endpoints. -/
def touches (c : Nat) (sess : Session) : Bool :=
  sess.server_conn_id = c || sess.client_conn_id = c

/-- Whether an outbound message is a `session_closed` for session `sid`. -/
def isClosedFor (sid : Nat) (q : Nat × ProxyToPeer) : Bool :=
  match q.2 with
  | .sessionClosed s _ => s == sid
  | _ => false

/-- Concrete fixture: the proxy started as `--proxy-password p` with no
TURN flags, so every TURN argument takes its clap default. -/
def exApp : AppCfg :=
  { proxy_password := "p", turn := turnFromArgs none none none }

/-- Concrete fixture registry: connection 1 is a server registered as
"alpha" (password "s1"), connection 4 is a server registered as "beta"
(password "s2"), connections 2 and 3 are clients, session 5 binds server
connection 1 to client connection 2, and session 6 binds server
connection 1 to client connection 3. -/
def exReg : ProxyState :=
  { connections := [1, 2, 3, 4]
    conn_roles := [(1, .server), (2, .client), (3, .client), (4, .server)]
    servers := [("alpha", { conn_id := 1, server_password := "s1" }),
      ("beta", { conn_id := 4, server_password := "s2" })]
    sessions := [(5, { session_id := 5, server_conn_id := 1, client_conn_id := 2 }),
      (6, { session_id := 6, server_conn_id := 1, client_conn_id := 3 })] }

/-- Concrete fixture: the registry state reached by attaching
connections 1 and 2, authenticating 1 as server and 2 as client,
registering 1 as "alpha", and opening session 5 from client 2. -/
def exReach : ProxyState :=
  { connections := [2, 1]
    conn_roles := [(2, .client), (1, .server)]
    servers := [("alpha", { conn_id := 1, server_password := "s1" })]
    sessions := [(5, { session_id := 5, server_conn_id := 1, client_conn_id := 2 })] }

/-- Concrete fixture oracle in which every OS interaction fails. -/
def exWorld : FsWorld :=
  { runCmd := fun _ => .error "spawn failed"
    readToString := fun _ => .error "no such file"
    readDir := fun _ => .error "permission denied"
    createDirAll := fun _ => .error "read-only"
    writeFs := fun _ _ => .error "read-only"
    parentDir := fun _ => none }

theorem hmFind_erase {α β : Type} [DecidableEq α] (m : List (α × β)) (a k : α) :
    hmFind (hmErase m a) k = if k = a then none else hmFind m k := by
  induction m with
  | nil => simp [hmErase, hmFind]
  | cons p rest ih =>
    by_cases hpa : p.1 = a
    · rw [show hmErase (p :: rest) a = hmErase rest a by
        simp [hmErase, List.filter_cons, hpa]]
      rw [ih]
      by_cases hka : k = a
      · simp [hka]
      · have hpk : p.1 ≠ k := by
          rw [hpa]
          intro hc
          exact hka hc.symm
        simp [hmFind, hka, hpk]
    · rw [show hmErase (p :: rest) a = p :: hmErase rest a by
        simp [hmErase, List.filter_cons, hpa]]
      by_cases hpk : p.1 = k
      · have hka : ¬k = a := by
          rw [← hpk]
          exact hpa
        simp [hmFind, hpk, hka]
      · simp only [hmFind, hpk, if_neg hpk]
        exact ih

theorem hmFind_insert {α β : Type} [DecidableEq α] (m : List (α × β)) (a : α) (v : β) (k : α) :
    hmFind (hmInsert m a v) k = if a = k then some v else hmFind m k := by
  by_cases h : a = k
  · simp [hmInsert, hmFind, h]
  · have hk : ¬k = a := fun hc => h hc.symm
    simp [hmInsert, hmFind, h, hmFind_erase, hk]

theorem hmFind_mem {α β : Type} [DecidableEq α] {m : List (α × β)} {k : α} {v : β}
    (h : hmFind m k = some v) : (k, v) ∈ m := by
  induction m with
  | nil => simp [hmFind] at h
  | cons p rest ih =>
    rcases p with ⟨pk, pv⟩
    by_cases hp : pk = k
    · subst hp
      simp [hmFind] at h
      subst h
      exact List.mem_cons_self _ _
    · simp [hmFind, hp] at h
      exact List.mem_cons_of_mem _ (ih h)

theorem hmFind_of_mem_nodup {α β : Type} [DecidableEq α] {m : List (α × β)} {k : α} {v : β}
    (hn : (m.map Prod.fst).Nodup) (h : (k, v) ∈ m) : hmFind m k = some v := by
  induction m with
  | nil => simp at h
  | cons p rest ih =>
    rcases p with ⟨pk, pv⟩
    simp only [List.map_cons, List.nodup_cons] at hn
    rcases List.mem_cons.mp h with h1 | h2
    · injection h1 with h1a h1b
      subst h1a
      subst h1b
      simp [hmFind]
    · have hk : pk ≠ k := by
        intro hc
        exact hn.1 (List.mem_map.mpr ⟨(k, v), h2, hc.symm⟩)
      simp only [hmFind, if_neg hk]
      exact ih hn.2 h2

theorem mem_connErase (l : List Nat) (c x : Nat) :
    x ∈ connErase l c ↔ x ∈ l ∧ x ≠ c := by
  simp [connErase]

theorem mem_connInsert (l : List Nat) (c x : Nat) :
    x ∈ connInsert l c ↔ x = c ∨ x ∈ l := by
  unfold connInsert
  by_cases h : c ∈ l
  · rw [if_pos h]
    constructor
    · intro hx
      exact Or.inr hx
    · rintro (rfl | hx)
      · exact h
      · exact hx
  · rw [if_neg h]
    simp [List.mem_cons]

theorem cleanupStep_fields (c : Nat) (acc : ProxyState × List (Nat × ProxyToPeer))
    (sid : Nat) :
    (cleanupStep c acc sid).1.connections = acc.1.connections ∧
    (cleanupStep c acc sid).1.conn_roles = acc.1.conn_roles ∧
    (cleanupStep c acc sid).1.servers = acc.1.servers := by
  unfold cleanupStep
  cases hmFind acc.1.sessions sid <;> simp

theorem cleanup_fold_fields (c : Nat) (ids : List Nat) :
    ∀ acc, ((ids.foldl (cleanupStep c) acc).1.connections = acc.1.connections ∧
      (ids.foldl (cleanupStep c) acc).1.conn_roles = acc.1.conn_roles ∧
      (ids.foldl (cleanupStep c) acc).1.servers = acc.1.servers) := by
  induction ids with
  | nil =>
    intro acc
    simp
  | cons h tl ih =>
    intro acc
    simp only [List.foldl_cons]
    obtain ⟨h1, h2, h3⟩ := cleanupStep_fields c acc h
    obtain ⟨g1, g2, g3⟩ := ih (cleanupStep c acc h)
    exact ⟨g1.trans h1, g2.trans h2, g3.trans h3⟩

theorem cleanup_fold_find (c : Nat) (ids : List Nat) :
    ∀ acc sid, hmFind ((ids.foldl (cleanupStep c) acc).1.sessions) sid =
      if sid ∈ ids then none else hmFind acc.1.sessions sid := by
  induction ids with
  | nil =>
    intro acc sid
    simp
  | cons h tl ih =>
    intro acc sid
    simp only [List.foldl_cons]
    rw [ih]
    by_cases hmem : sid ∈ tl
    · simp [hmem, List.mem_cons]
    · rw [if_neg hmem]
      by_cases hsh : sid = h
      · subst hsh
        have hz : hmFind ((cleanupStep c acc sid).1.sessions) sid = none := by
          cases hf : hmFind acc.1.sessions sid with
          | none => simp only [cleanupStep, hf]
          | some sess => simp [cleanupStep, hf, hmFind_erase]
        simp [List.mem_cons, hz]
      · have hz : hmFind ((cleanupStep c acc h).1.sessions) sid =
            hmFind acc.1.sessions sid := by
          cases hf : hmFind acc.1.sessions h with
          | none => simp [cleanupStep, hf]
          | some sess => simp [cleanupStep, hf, hmFind_erase, hsh]
        simp [List.mem_cons, hmem, hsh, hz]

theorem cleanup_fold_notes (c : Nat) :
    ∀ (F : List (Nat × Session)) (acc : ProxyState × List (Nat × ProxyToPeer)),
      (F.map Prod.fst).Nodup →
      (∀ p ∈ F, hmFind acc.1.sessions p.1 = some p.2) →
      (∀ p ∈ F, p.2.session_id = p.1) →
      ((F.map (fun p => p.2.session_id)).foldl (cleanupStep c) acc).2 =
        acc.2 ++ F.map (fun p => cleanupNote c p.2.session_id p.2) := by
  intro F
  induction F with
  | nil =>
    intro acc _ _ _
    simp
  | cons p F' ih =>
    intro acc hn hf hk
    simp only [List.map_cons, List.foldl_cons]
    have hp1 : p.2.session_id = p.1 := hk p (List.mem_cons_self _ _)
    have hfp : hmFind acc.1.sessions p.2.session_id = some p.2 := by
      rw [hp1]
      exact hf p (List.mem_cons_self _ _)
    have hstep : cleanupStep c acc p.2.session_id =
        ({ acc.1 with sessions := hmErase acc.1.sessions p.2.session_id },
          acc.2 ++ [cleanupNote c p.2.session_id p.2]) := by
      simp [cleanupStep, hfp]
    rw [hstep]
    simp only [List.map_cons, List.nodup_cons] at hn
    have hf' : ∀ q ∈ F',
        hmFind (hmErase acc.1.sessions p.2.session_id) q.1 = some q.2 := by
      intro q hq
      have hq1 : q.1 ≠ p.2.session_id := by
        rw [hp1]
        intro hc
        exact hn.1 (List.mem_map.mpr ⟨q, hq, hc⟩)
      rw [hmFind_erase, if_neg hq1]
      exact hf q (List.mem_cons_of_mem _ hq)
    have hk' : ∀ q ∈ F', q.2.session_id = q.1 := fun q hq =>
      hk q (List.mem_cons_of_mem _ hq)
    rw [ih _ hn.2 hf' hk']
    simp

theorem cleanup_connections_eq (st : ProxyState) (c : Nat) (nm : Option String) :
    (cleanup_connection st c nm).1.connections = connErase st.connections c := by
  unfold cleanup_connection
  cases nm <;> simp [cleanup_fold_fields]

theorem cleanup_roles_eq (st : ProxyState) (c : Nat) (nm : Option String) :
    (cleanup_connection st c nm).1.conn_roles = hmErase st.conn_roles c := by
  unfold cleanup_connection
  cases nm <;> simp [cleanup_fold_fields]

theorem cleanup_servers_eq_none (st : ProxyState) (c : Nat) :
    (cleanup_connection st c none).1.servers = st.servers := by
  unfold cleanup_connection
  simp [cleanup_fold_fields]

theorem cleanup_servers_eq_some (st : ProxyState) (c : Nat) (name : String) :
    (cleanup_connection st c (some name)).1.servers = hmErase st.servers name := by
  unfold cleanup_connection
  simp [cleanup_fold_fields]

theorem cleanup_sessions_find (st : ProxyState) (c : Nat) (nm : Option String) (sid : Nat) :
    hmFind (cleanup_connection st c nm).1.sessions sid =
      if sid ∈ (st.sessions.filter
          (fun p => p.2.server_conn_id = c || p.2.client_conn_id = c)).map
          (fun p => p.2.session_id) then none
      else hmFind st.sessions sid := by
  unfold cleanup_connection
  cases nm <;> simp [cleanup_fold_find]

theorem cleanup_notes_eq (st : ProxyState) (c : Nat) (nm : Option String)
    (hkeys : (st.sessions.map Prod.fst).Nodup) (hkeyed : SessionsKeyed st) :
    (cleanup_connection st c nm).2 =
      (st.sessions.filter
        (fun p => p.2.server_conn_id = c || p.2.client_conn_id = c)).map
        (fun p => cleanupNote c p.2.session_id p.2) := by
  have hmemfind : ∀ p ∈ st.sessions, hmFind st.sessions p.1 = some p.2 := by
    intro p hp
    exact hmFind_of_mem_nodup hkeys (by simpa using hp)
  have hmemkeyed : ∀ p ∈ st.sessions, p.2.session_id = p.1 := by
    intro p hp
    exact hkeyed p.1 p.2 (hmemfind p hp)
  have hfn : ((st.sessions.filter
      (fun p => p.2.server_conn_id = c || p.2.client_conn_id = c)).map
      Prod.fst).Nodup :=
    List.Nodup.sublist (List.Sublist.map _ (List.filter_sublist _)) hkeys
  have hff : ∀ p ∈ st.sessions.filter
      (fun p => p.2.server_conn_id = c || p.2.client_conn_id = c),
      p.2.session_id = p.1 := by
    intro p hp
    exact hmemkeyed p (List.mem_of_mem_filter hp)
  unfold cleanup_connection
  cases nm with
  | none =>
    rw [cleanup_fold_notes c _ _ hfn
      (by
        intro p hp
        exact hmemfind p (List.mem_of_mem_filter hp))
      hff]
    simp
  | some name =>
    rw [cleanup_fold_notes c _ _ hfn
      (by
        intro p hp
        exact hmemfind p (List.mem_of_mem_filter hp))
      hff]
    simp

/-- A session that survives `cleanup_connection` is exactly a session of
the original registry neither of whose endpoints is the detached
connection. -/
theorem cleanup_sessions_char (st : ProxyState) (c : Nat) (nm : Option String)
    (hkeys : (st.sessions.map Prod.fst).Nodup) (hkeyed : SessionsKeyed st)
    (sid : Nat) (sess : Session) :
    hmFind (cleanup_connection st c nm).1.sessions sid = some sess ↔
      (hmFind st.sessions sid = some sess ∧
        sess.server_conn_id ≠ c ∧ sess.client_conn_id ≠ c) := by
  rw [cleanup_sessions_find]
  constructor
  · intro h
    by_cases hmem : sid ∈ (st.sessions.filter
        (fun p => p.2.server_conn_id = c || p.2.client_conn_id = c)).map
        (fun p => p.2.session_id)
    · rw [if_pos hmem] at h
      exact absurd h (by simp)
    · rw [if_neg hmem] at h
      refine ⟨h, ?_, ?_⟩
      · intro hsc
        apply hmem
        refine List.mem_map.mpr ⟨(sid, sess), ?_, ?_⟩
        · exact List.mem_filter.mpr ⟨hmFind_mem h, by simp [hsc]⟩
        · exact hkeyed sid sess h
      · intro hcc
        apply hmem
        refine List.mem_map.mpr ⟨(sid, sess), ?_, ?_⟩
        · exact List.mem_filter.mpr ⟨hmFind_mem h, by simp [hcc]⟩
        · exact hkeyed sid sess h
  · rintro ⟨hfind, hsc, hcc⟩
    have hmem : sid ∉ (st.sessions.filter
        (fun p => p.2.server_conn_id = c || p.2.client_conn_id = c)).map
        (fun p => p.2.session_id) := by
      intro hm
      rcases List.mem_map.mp hm with ⟨p, hpf, hpid⟩
      have hpm : p ∈ st.sessions := List.mem_of_mem_filter hpf
      have hpt := List.of_mem_filter hpf
      have hp1 : p.2.session_id = p.1 := by
        have hfp : hmFind st.sessions p.1 = some p.2 :=
          hmFind_of_mem_nodup hkeys (by simpa using hpm)
        exact hkeyed p.1 p.2 hfp
      have hfp : hmFind st.sessions sid = some p.2 := by
        rw [← hpid, hp1]
        exact hmFind_of_mem_nodup hkeys (by simpa using hpm)
      rw [hfind] at hfp
      have : sess = p.2 := by injection hfp
      subst this
      simp at hpt
      rcases hpt with h1 | h1
      · exact hsc h1
      · exact hcc h1
    rw [if_neg hmem]
    exact hfind

theorem nodup_keys_hmErase {α β : Type} [DecidableEq α] {m : List (α × β)} (a : α)
    (h : (m.map Prod.fst).Nodup) : ((hmErase m a).map Prod.fst).Nodup :=
  List.Nodup.sublist (List.Sublist.map _ (List.filter_sublist _)) h

theorem not_mem_erase_keys {α β : Type} [DecidableEq α] (m : List (α × β)) (a : α) :
    a ∉ (hmErase m a).map Prod.fst := by
  intro hm
  rcases List.mem_map.mp hm with ⟨p, hp, hpa⟩
  have := List.of_mem_filter hp
  simp [hpa] at this

theorem nodup_keys_hmInsert {α β : Type} [DecidableEq α] {m : List (α × β)} (a : α) (v : β)
    (h : (m.map Prod.fst).Nodup) : ((hmInsert m a v).map Prod.fst).Nodup := by
  unfold hmInsert
  simp only [List.map_cons, List.nodup_cons]
  exact ⟨not_mem_erase_keys m a, nodup_keys_hmErase a h⟩

theorem cleanup_fold_sessions_sublist (c : Nat) (ids : List Nat) :
    ∀ acc, List.Sublist ((ids.foldl (cleanupStep c) acc).1.sessions)
      acc.1.sessions := by
  induction ids with
  | nil =>
    intro acc
    simp
  | cons h tl ih =>
    intro acc
    simp only [List.foldl_cons]
    refine List.Sublist.trans (ih (cleanupStep c acc h)) ?_
    unfold cleanupStep
    cases hmFind acc.1.sessions h with
    | none => simp
    | some sess =>
      show List.Sublist (hmErase acc.1.sessions h) acc.1.sessions
      exact List.filter_sublist _

/-- Every possible registry effect of one `handle_socket` loop iteration:
no change, a role insert, a server registration insert owned by the
acting connection, a session erase, or a session insert pairing the
acting client with a registered server's connection. -/
theorem handleText_state_cases (app : AppCfg) (c freshSid : Nat) (phase : ConnPhase)
    (t : InText) (st : ProxyState) :
    (handleText app c freshSid phase st t).2.1 = st ∨
    (∃ r, (handleText app c freshSid phase st t).2.1 =
      { st with conn_roles := hmInsert st.conn_roles c r }) ∨
    (∃ name pw, (handleText app c freshSid phase st t).2.1 =
      { st with servers := hmInsert st.servers name ⟨c, pw⟩ }) ∨
    (∃ sid, (handleText app c freshSid phase st t).2.1 =
      { st with sessions := hmErase st.sessions sid }) ∨
    (∃ name server, hmFind st.servers name = some server ∧
      (handleText app c freshSid phase st t).2.1 =
        { st with sessions :=
          hmInsert st.sessions freshSid ⟨freshSid, server.conn_id, c⟩ }) := by
  cases phase with
  | unauth =>
    cases t with
    | cmsg m =>
      cases m with
      | authProxy pw r =>
        by_cases hpw : pw = app.proxy_password
        · exact Or.inr (Or.inl ⟨r, by simp [handleText, parseClientToProxy, hpw]⟩)
        · exact Or.inl (by simp [handleText, parseClientToProxy, hpw])
      | registerServer a b => exact Or.inl (by simp [handleText, parseClientToProxy])
      | listServers => exact Or.inl (by simp [handleText, parseClientToProxy])
      | connectServer a b u => exact Or.inl (by simp [handleText, parseClientToProxy])
      | clientCommand a b => exact Or.inl (by simp [handleText, parseClientToProxy])
      | disconnectSession a => exact Or.inl (by simp [handleText, parseClientToProxy])
    | smsg m => exact Or.inl (by simp [handleText, parseClientToProxy])
    | relayData a b => exact Or.inl (by simp [handleText, parseClientToProxy])
    | signalMsg a b => exact Or.inl (by simp [handleText, parseClientToProxy])
    | serverSignal a b => exact Or.inl (by simp [handleText, parseClientToProxy])
    | malformed => exact Or.inl (by simp [handleText, parseClientToProxy])
  | serverUnregistered =>
    cases t with
    | cmsg m =>
      cases m with
      | registerServer name pw =>
        by_cases hfound : (hmFind st.servers name).isSome
        · exact Or.inl (by simp [handleText, parseClientToProxy, hfound])
        · exact Or.inr (Or.inr (Or.inl
            ⟨name, pw, by simp [handleText, parseClientToProxy, hfound]⟩))
      | authProxy a b => exact Or.inl (by simp [handleText, parseClientToProxy])
      | listServers => exact Or.inl (by simp [handleText, parseClientToProxy])
      | connectServer a b u => exact Or.inl (by simp [handleText, parseClientToProxy])
      | clientCommand a b => exact Or.inl (by simp [handleText, parseClientToProxy])
      | disconnectSession a => exact Or.inl (by simp [handleText, parseClientToProxy])
    | smsg m => exact Or.inl (by simp [handleText, parseClientToProxy])
    | relayData a b => exact Or.inl (by simp [handleText, parseClientToProxy])
    | signalMsg a b => exact Or.inl (by simp [handleText, parseClientToProxy])
    | serverSignal a b => exact Or.inl (by simp [handleText, parseClientToProxy])
    | malformed => exact Or.inl (by simp [handleText, parseClientToProxy])
  | serverActive nm =>
    cases t with
    | smsg m =>
      cases m with
      | commandOutput sid out done =>
        exact Or.inl (by
          cases hf : hmFind st.sessions sid <;>
            simp [handleText, parseServerToProxy, hf])
      | serverDisconnectSession sid =>
        cases hf : hmFind st.sessions sid with
        | none => exact Or.inl (by simp [handleText, parseServerToProxy, hf])
        | some sess =>
          exact Or.inr (Or.inr (Or.inr (Or.inl
            ⟨sid, by simp [handleText, parseServerToProxy, hf]⟩)))
    | cmsg m => exact Or.inl (by simp [handleText, parseServerToProxy])
    | relayData a b => exact Or.inl (by simp [handleText, parseServerToProxy])
    | signalMsg a b => exact Or.inl (by simp [handleText, parseServerToProxy])
    | serverSignal a b => exact Or.inl (by simp [handleText, parseServerToProxy])
    | malformed => exact Or.inl (by simp [handleText, parseServerToProxy])
  | clientActive =>
    cases t with
    | cmsg m =>
      cases m with
      | listServers => exact Or.inl (by simp [handleText, parseClientToProxy])
      | connectServer name pw u =>
        cases hf : hmFind st.servers name with
        | none => exact Or.inl (by simp [handleText, parseClientToProxy, hf])
        | some server =>
          by_cases hpw : server.server_password = pw
          · exact Or.inr (Or.inr (Or.inr (Or.inr
              ⟨name, server, hf, by simp [handleText, parseClientToProxy, hf, hpw]⟩)))
          · exact Or.inl (by simp [handleText, parseClientToProxy, hf, hpw])
      | clientCommand sid cmd =>
        exact Or.inl (by
          cases hf : hmFind st.sessions sid with
          | none => simp [handleText, parseClientToProxy, hf]
          | some sess =>
            by_cases hcl : sess.client_conn_id = c <;>
              simp [handleText, parseClientToProxy, hf, hcl])
      | disconnectSession sid =>
        cases hf : hmFind st.sessions sid with
        | none => exact Or.inl (by simp [handleText, parseClientToProxy, hf])
        | some sess =>
          refine Or.inr (Or.inr (Or.inr (Or.inl ⟨sid, ?_⟩)))
          by_cases hcl : sess.client_conn_id = c <;>
            simp [handleText, parseClientToProxy, hf, hcl]
      | authProxy a b => exact Or.inl (by simp [handleText, parseClientToProxy])
      | registerServer a b => exact Or.inl (by simp [handleText, parseClientToProxy])
    | smsg m => exact Or.inl (by simp [handleText, parseClientToProxy])
    | relayData a b => exact Or.inl (by simp [handleText, parseClientToProxy])
    | signalMsg a b => exact Or.inl (by simp [handleText, parseClientToProxy])
    | serverSignal a b => exact Or.inl (by simp [handleText, parseClientToProxy])
    | malformed => exact Or.inl (by simp [handleText, parseClientToProxy])
  | terminal => exact Or.inl (by simp [handleText])

theorem registryInv_new : RegistryInv ProxyState.new := by
  refine ⟨by simp [ProxyState.new], ?_, ?_, ?_⟩ <;>
    intro a b h <;> simp [ProxyState.new, hmFind] at h

theorem registryInv_attach (st : ProxyState) (c : Nat) (h : RegistryInv st) :
    RegistryInv { st with connections := connInsert st.connections c } := by
  obtain ⟨hnd, hkeyed, hserv, hsess⟩ := h
  refine ⟨hnd, hkeyed, ?_, ?_⟩
  · intro name reg hf
    exact (mem_connInsert _ _ _).mpr (Or.inr (hserv name reg hf))
  · intro sid sess hf
    obtain ⟨ha, hb⟩ := hsess sid sess hf
    exact ⟨(mem_connInsert _ _ _).mpr (Or.inr ha),
      (mem_connInsert _ _ _).mpr (Or.inr hb)⟩

theorem registryInv_handleText (app : AppCfg) (c freshSid : Nat) (phase : ConnPhase)
    (t : InText) (st : ProxyState) (hc : c ∈ st.connections)
    (hinv : RegistryInv st) :
    RegistryInv (handleText app c freshSid phase st t).2.1 := by
  obtain ⟨hnd, hkeyed, hserv, hsess⟩ := hinv
  rcases handleText_state_cases app c freshSid phase t st with
    h | ⟨r, h⟩ | ⟨name, pw, h⟩ | ⟨sid, h⟩ | ⟨name, server, hf, h⟩ <;> rw [h]
  · exact ⟨hnd, hkeyed, hserv, hsess⟩
  · exact ⟨hnd, hkeyed, hserv, hsess⟩
  · refine ⟨hnd, hkeyed, ?_, hsess⟩
    intro nm reg hfind
    replace hfind : hmFind (hmInsert st.servers name ⟨c, pw⟩) nm = some reg := hfind
    rw [hmFind_insert] at hfind
    by_cases hnm : name = nm
    · rw [if_pos hnm] at hfind
      injection hfind with hreg
      subst hreg
      exact hc
    · rw [if_neg hnm] at hfind
      exact hserv nm reg hfind
  · refine ⟨nodup_keys_hmErase sid hnd, ?_, hserv, ?_⟩
    · intro k sess hfind
      replace hfind : hmFind (hmErase st.sessions sid) k = some sess := hfind
      rw [hmFind_erase] at hfind
      by_cases hk : k = sid
      · rw [if_pos hk] at hfind
        exact absurd hfind (by simp)
      · rw [if_neg hk] at hfind
        exact hkeyed k sess hfind
    · intro k sess hfind
      replace hfind : hmFind (hmErase st.sessions sid) k = some sess := hfind
      rw [hmFind_erase] at hfind
      by_cases hk : k = sid
      · rw [if_pos hk] at hfind
        exact absurd hfind (by simp)
      · rw [if_neg hk] at hfind
        exact hsess k sess hfind
  · refine ⟨nodup_keys_hmInsert freshSid _ hnd, ?_, hserv, ?_⟩
    · intro k sess hfind
      replace hfind :
          hmFind (hmInsert st.sessions freshSid ⟨freshSid, server.conn_id, c⟩) k =
            some sess := hfind
      rw [hmFind_insert] at hfind
      by_cases hk : freshSid = k
      · rw [if_pos hk] at hfind
        injection hfind with hs
        subst hs
        exact hk
      · rw [if_neg hk] at hfind
        exact hkeyed k sess hfind
    · intro k sess hfind
      replace hfind :
          hmFind (hmInsert st.sessions freshSid ⟨freshSid, server.conn_id, c⟩) k =
            some sess := hfind
      rw [hmFind_insert] at hfind
      by_cases hk : freshSid = k
      · rw [if_pos hk] at hfind
        injection hfind with hs
        subst hs
        exact ⟨hserv name server hf, hc⟩
      · rw [if_neg hk] at hfind
        exact hsess k sess hfind

theorem registryInv_cleanup (st : ProxyState) (c : Nat) (nm : Option String)
    (hown : CleanupNameOk st c nm) (hinv : RegistryInv st) :
    RegistryInv (cleanup_connection st c nm).1 := by
  obtain ⟨hnd, hkeyed, hserv, hsess⟩ := hinv
  refine ⟨?_, ?_, ?_, ?_⟩
  · have hsub : List.Sublist ((cleanup_connection st c nm).1.sessions) st.sessions := by
      unfold cleanup_connection
      cases nm <;> exact cleanup_fold_sessions_sublist c _ _
    exact List.Nodup.sublist (List.Sublist.map _ hsub) hnd
  · intro k sess hfind
    have hh := (cleanup_sessions_char st c nm hnd hkeyed k sess).mp hfind
    exact hkeyed k sess hh.1
  · intro name reg hfind
    have hne : reg.conn_id ≠ c ∧ hmFind st.servers name = some reg := by
      cases nm with
      | none =>
        rw [cleanup_servers_eq_none] at hfind
        refine ⟨?_, hfind⟩
        intro hcc
        have := hown name reg hfind hcc
        exact Option.noConfusion this
      | some n =>
        rw [cleanup_servers_eq_some] at hfind
        rw [hmFind_erase] at hfind
        by_cases hnn : name = n
        · rw [if_pos hnn] at hfind
          exact absurd hfind (by simp)
        · rw [if_neg hnn] at hfind
          refine ⟨?_, hfind⟩
          intro hcc
          have := hown name reg hfind hcc
          injection this with hx
          exact hnn hx.symm
    rw [cleanup_connections_eq]
    exact (mem_connErase _ _ _).mpr ⟨hserv name reg hne.2, hne.1⟩
  · intro k sess hfind
    obtain ⟨horig, hsc, hcc⟩ := (cleanup_sessions_char st c nm hnd hkeyed k sess).mp hfind
    obtain ⟨ha, hb⟩ := hsess k sess horig
    rw [cleanup_connections_eq]
    exact ⟨(mem_connErase _ _ _).mpr ⟨ha, hsc⟩, (mem_connErase _ _ _).mpr ⟨hb, hcc⟩⟩

/-- Every reachable registry state satisfies the registry invariant. -/
theorem registryInv_of_reach {st : ProxyState} (h : Reach st) : RegistryInv st := by
  induction h with
  | init => exact registryInv_new
  | attach c h ih => exact registryInv_attach _ c ih
  | msg app c freshSid phase t h hc ih =>
    exact registryInv_handleText app c freshSid phase t _ hc ih
  | cleanup c nm h hown ih => exact registryInv_cleanup _ c nm hown ih

theorem isClosedFor_cleanupNote (c s sid : Nat) (sess : Session) :
    isClosedFor sid (cleanupNote c s sess) = (s == sid) := by
  unfold cleanupNote isClosedFor
  by_cases h : sess.server_conn_id = c <;> simp [h]

theorem notes_filter_nil (c sid : Nat) :
    ∀ (F : List (Nat × Session)),
      (∀ p ∈ F, p.2.session_id = p.1) →
      (∀ p ∈ F, p.1 ≠ sid) →
      (F.map (fun p => cleanupNote c p.2.session_id p.2)).filter (isClosedFor sid) = [] := by
  intro F
  induction F with
  | nil =>
    intro _ _
    simp
  | cons p F' ih =>
    intro hk hne
    have h1 : isClosedFor sid (cleanupNote c p.2.session_id p.2) = false := by
      rw [isClosedFor_cleanupNote, hk p (List.mem_cons_self _ _)]
      simp [hne p (List.mem_cons_self _ _)]
    simp only [List.map_cons, List.filter_cons, h1]
    exact ih (fun q hq => hk q (List.mem_cons_of_mem _ hq))
      (fun q hq => hne q (List.mem_cons_of_mem _ hq))

theorem notes_filter_unique (c sid : Nat) (sess : Session) :
    ∀ (F : List (Nat × Session)),
      (F.map Prod.fst).Nodup →
      (∀ p ∈ F, p.2.session_id = p.1) →
      (sid, sess) ∈ F →
      (F.map (fun p => cleanupNote c p.2.session_id p.2)).filter (isClosedFor sid) =
        [cleanupNote c sid sess] := by
  intro F
  induction F with
  | nil =>
    intro _ _ h
    simp at h
  | cons p F' ih =>
    intro hn hk hmem
    simp only [List.map_cons, List.nodup_cons] at hn
    have hkp : p.2.session_id = p.1 := hk p (List.mem_cons_self _ _)
    rcases List.mem_cons.mp hmem with h1 | h2
    · have hp1 : p.1 = sid := by rw [← h1]
      have hp2 : p.2 = sess := by rw [← h1]
      have hkeep : isClosedFor sid (cleanupNote c p.2.session_id p.2) = true := by
        rw [isClosedFor_cleanupNote, hkp, hp1]
        simp
      have htail : (F'.map (fun q => cleanupNote c q.2.session_id q.2)).filter
          (isClosedFor sid) = [] := by
        refine notes_filter_nil c sid F'
          (fun q hq => hk q (List.mem_cons_of_mem _ hq)) ?_
        intro q hq hqs
        apply hn.1
        rw [← hp1, ← hqs] at *
        exact List.mem_map.mpr ⟨q, hq, rfl⟩
      simp only [List.map_cons, List.filter_cons, hkeep, if_pos]
      rw [htail, hkp, hp1, hp2]
    · have hp1 : p.1 ≠ sid := by
        intro hc
        apply hn.1
        rw [hc]
        exact List.mem_map.mpr ⟨(sid, sess), h2, rfl⟩
      have hdrop : isClosedFor sid (cleanupNote c p.2.session_id p.2) = false := by
        rw [isClosedFor_cleanupNote, hkp]
        simp [hp1]
      simp only [List.map_cons, List.filter_cons, hdrop]
      exact ih hn.2 (fun q hq => hk q (List.mem_cons_of_mem _ hq)) h2

/-- `SessionsKeyed` follows from the (decidable) entry-wise property. -/
theorem sessionsKeyed_of_forall_mem (st : ProxyState)
    (h : ∀ p ∈ st.sessions, p.2.session_id = p.1) : SessionsKeyed st := by
  intro k sess hf
  exact h (k, sess) (hmFind_mem hf)

/-- `CleanupNameOk` follows from the (decidable) entry-wise property. -/
theorem cleanupNameOk_of_forall_mem (st : ProxyState) (c : Nat) (nm : Option String)
    (h : ∀ p ∈ st.servers, p.2.conn_id = c → nm = some p.1) :
    CleanupNameOk st c nm := by
  intro name reg hf hcc
  exact h (name, reg) (hmFind_mem hf) hcc

/-- C5: detaching a connection `c` removes, in one registry critical
section, every session whose endpoints include `c` (and only those),
`c`'s connection entry, `c`'s role entry, and every server registration
`c` owns, and produces exactly one `session_closed` notification per
removed session addressed to the surviving peer, with reason
"server disconnected" when `c` was the session's server and
"client disconnected" when `c` was the client.  The notification list is
returned from the critical section and sent by the caller after the lock
is released. -/
theorem c5_detach_cascade (st : ProxyState) (c : Nat) (nm : Option String)
    (hkeys : (st.sessions.map Prod.fst).Nodup)
    (hkeyed : SessionsKeyed st)
    (hown : CleanupNameOk st c nm) :
    (∀ sid sess, hmFind (cleanup_connection st c nm).1.sessions sid = some sess ↔
      (hmFind st.sessions sid = some sess ∧ sess.server_conn_id ≠ c ∧
        sess.client_conn_id ≠ c)) ∧
    c ∉ (cleanup_connection st c nm).1.connections ∧
    hmFind (cleanup_connection st c nm).1.conn_roles c = none ∧
    (∀ name reg, hmFind (cleanup_connection st c nm).1.servers name = some reg →
      reg.conn_id ≠ c) ∧
    (∀ sid sess, hmFind st.sessions sid = some sess →
      sess.server_conn_id = c ∨ sess.client_conn_id = c →
      (cleanup_connection st c nm).2.filter (isClosedFor sid) =
        [if sess.server_conn_id = c then
          (sess.client_conn_id, ProxyToPeer.sessionClosed sid "server disconnected")
        else
          (sess.server_conn_id, ProxyToPeer.sessionClosed sid "client disconnected")]) ∧
    (∀ q, q ∈ (cleanup_connection st c nm).2 → ∃ sid sess,
      hmFind st.sessions sid = some sess ∧
      (sess.server_conn_id = c ∨ sess.client_conn_id = c) ∧
      q = cleanupNote c sid sess) := by
  refine ⟨?_, ?_, ?_, ?_, ?_, ?_⟩
  · intro sid sess
    exact cleanup_sessions_char st c nm hkeys hkeyed sid sess
  · rw [cleanup_connections_eq]
    intro h
    exact ((mem_connErase _ _ _).mp h).2 rfl
  · rw [cleanup_roles_eq, hmFind_erase]
    simp
  · intro name reg hfind
    cases nm with
    | none =>
      rw [cleanup_servers_eq_none] at hfind
      intro hcc
      exact Option.noConfusion (hown name reg hfind hcc)
    | some n =>
      rw [cleanup_servers_eq_some, hmFind_erase] at hfind
      by_cases hnn : name = n
      · rw [if_pos hnn] at hfind
        exact absurd hfind (by simp)
      · rw [if_neg hnn] at hfind
        intro hcc
        have hx := hown name reg hfind hcc
        injection hx with hx
        exact hnn hx.symm
  · intro sid sess hfind htouch
    rw [cleanup_notes_eq st c nm hkeys hkeyed]
    have hFn : ((st.sessions.filter
        (fun p => p.2.server_conn_id = c || p.2.client_conn_id = c)).map
        Prod.fst).Nodup :=
      List.Nodup.sublist (List.Sublist.map _ (List.filter_sublist _)) hkeys
    have hFk : ∀ p ∈ st.sessions.filter
        (fun p => p.2.server_conn_id = c || p.2.client_conn_id = c),
        p.2.session_id = p.1 := by
      intro p hp
      have hpm := List.mem_of_mem_filter hp
      exact hkeyed p.1 p.2 (hmFind_of_mem_nodup hkeys (by simpa using hpm))
    have hmemF : (sid, sess) ∈ st.sessions.filter
        (fun p => p.2.server_conn_id = c || p.2.client_conn_id = c) := by
      refine List.mem_filter.mpr ⟨hmFind_mem hfind, ?_⟩
      rcases htouch with h | h <;> simp [h]
    rw [notes_filter_unique c sid sess _ hFn hFk hmemF]
    rfl
  · intro q hq
    rw [cleanup_notes_eq st c nm hkeys hkeyed] at hq
    rcases List.mem_map.mp hq with ⟨p, hpF, rfl⟩
    have hpm : p ∈ st.sessions := List.mem_of_mem_filter hpF
    have hpt := List.of_mem_filter hpF
    have hfp : hmFind st.sessions p.1 = some p.2 :=
      hmFind_of_mem_nodup hkeys (by simpa using hpm)
    have hk1 : p.2.session_id = p.1 := hkeyed p.1 p.2 hfp
    refine ⟨p.1, p.2, hfp, ?_, ?_⟩
    · simpa using hpt
    · rw [hk1]

/-- Witness for C5 at the concrete fixture: detaching server connection
1 (registered as "alpha") removes it from the connection map and yields
the "server disconnected" notification for session 5's client. -/
theorem c5_witness :
    ((exReg.sessions.map Prod.fst).Nodup ∧ SessionsKeyed exReg ∧
      CleanupNameOk exReg 1 (some "alpha")) ∧
    (1 : Nat) ∉ (cleanup_connection exReg 1 (some "alpha")).1.connections ∧
    (cleanup_connection exReg 1 (some "alpha")).2.filter (isClosedFor 5) =
      [(2, ProxyToPeer.sessionClosed 5 "server disconnected")] := by
  have hkeys : (exReg.sessions.map Prod.fst).Nodup := by decide
  have hkeyed : SessionsKeyed exReg := sessionsKeyed_of_forall_mem exReg (by decide)
  have hown : CleanupNameOk exReg 1 (some "alpha") :=
    cleanupNameOk_of_forall_mem exReg 1 (some "alpha") (by decide)
  have h := c5_detach_cascade exReg 1 (some "alpha") hkeys hkeyed hown
  refine ⟨⟨hkeys, hkeyed, hown⟩, h.2.1, ?_⟩
  have h5 := h.2.2.2.2.1 5 ⟨5, 1, 2⟩ (by decide) (Or.inl (by decide))
  simpa using h5

/-- C1: the proxy never forwards `relay_data`.  Its `ClientToProxy` and
`ServerToProxy` enums have no `relay_data` variant, so a shared-schema
`relay_data` frame fails to parse in both the client-active and the
server-active dispatch arms and is silently dropped: the registry is
unchanged and no message is sent to anyone — in particular nothing is
forwarded to the session peer, contradicting the claimed byte-identical
forwarding.  (The "no forwarding for non-participants or unknown
sessions" half holds vacuously.) -/
theorem c1_relay_data_dropped (app : AppCfg) (c freshSid sid : Nat)
    (payload : List Nat) (st : ProxyState) (name : String) :
    handleText app c freshSid ConnPhase.clientActive st (.relayData sid payload) =
      (ConnPhase.clientActive, st, []) ∧
    handleText app c freshSid (ConnPhase.serverActive name) st (.relayData sid payload) =
      (ConnPhase.serverActive name, st, []) :=
  ⟨rfl, rfl⟩

/-- C2: the proxy never forwards signaling.  A shared-schema `signal`
frame from a client and a `server_signal` frame from a server both fail
to parse against the proxy's local enums and are silently dropped (no
state change, no sends); moreover the proxy's outbound `ProxyToPeer`
enum has no `peer_signal` variant at all, so the claimed `peer_signal`
forwarding cannot occur. -/
theorem c2_signal_dropped (app : AppCfg) (c freshSid sid : Nat)
    (sg : SignalPayload) (st : ProxyState) (name : String) :
    handleText app c freshSid ConnPhase.clientActive st (.signalMsg sid sg) =
      (ConnPhase.clientActive, st, []) ∧
    handleText app c freshSid (ConnPhase.serverActive name) st (.serverSignal sid sg) =
      (ConnPhase.serverActive name, st, []) :=
  ⟨rfl, rfl⟩

/-- C3 counterexample: the proxy started with only `--proxy-password p`
(every TURN flag absent, so clap substitutes the defaults) still answers
a `connect_server` with `use_p2p = true` by `connected` carrying
`via_p2p = true` and the default TURN credentials — not `via_p2p =
false` with no credentials as claimed. -/
theorem c3_counterexample :
    exApp.turn = turnFromArgs none none none ∧
    (handleText exApp 2 7 ConnPhase.clientActive exReg
        (.cmsg (.connectServer "alpha" "s1" true))).2.2 =
      [(2, ProxyToPeer.connected 7 "alpha" true
          (some { url := "turn:coturn:3478", username := "peer",
                  password := "peer-secret" })),
        (1, ProxyToPeer.clientConnected 7 2)] :=
  ⟨rfl, by decide⟩

/-- C3 (amended): the proxy always has TURN credentials (the TURN CLI
flags have defaults and cannot be absent); however the proxy was
started, a successful `connect_server` yields `connected` with `via_p2p`
equal to the request's `use_p2p` flag, carrying the configured TURN
credentials exactly when `use_p2p` is true, followed by
`client_connected` to the server. -/
theorem c3_turn_always_configured (pp : String)
    (turnUrlArg turnUserArg turnPassArg : Option String) (c freshSid : Nat)
    (st : ProxyState) (name pw : String) (useP2p : Bool)
    (server : ServerRegistration)
    (hf : hmFind st.servers name = some server)
    (hpw : server.server_password = pw) :
    (handleText
        { proxy_password := pp,
          turn := turnFromArgs turnUrlArg turnUserArg turnPassArg }
        c freshSid ConnPhase.clientActive st
        (.cmsg (.connectServer name pw useP2p))).2.2 =
      [(c, ProxyToPeer.connected freshSid name useP2p
          (if useP2p then some (turnFromArgs turnUrlArg turnUserArg turnPassArg)
            else none)),
        (server.conn_id, ProxyToPeer.clientConnected freshSid c)] := by
  simp [handleText, parseClientToProxy, hf, hpw]

/-- Witness for the amended C3: a relay-only connect (`use_p2p = false`)
gets `via_p2p = false` and no credentials. -/
theorem c3_witness :
    hmFind exReg.servers "alpha" =
      some { conn_id := 1, server_password := "s1" } ∧
    (handleText exApp 2 7 ConnPhase.clientActive exReg
        (.cmsg (.connectServer "alpha" "s1" false))).2.2 =
      [(2, ProxyToPeer.connected 7 "alpha" false none),
        (1, ProxyToPeer.clientConnected 7 2)] := by
  refine ⟨by decide, ?_⟩
  exact c3_turn_always_configured "p" none none none 2 7 exReg "alpha" "s1" false
    { conn_id := 1, server_password := "s1" } (by decide) (by decide)

/-- C4: evidence of the code bug.  Client connection 3 is not session
5's client (session 5 binds server 1 to client 2), yet its
`disconnect_session{5}` removes session 5 from the registry (the code
calls `sessions.remove` before checking ownership) while sending
nothing; and server connection 4 ("beta") is not session 5's server, yet
its `server_disconnect_session{5}` (which performs no ownership check at
all) removes session 5 and sends `session_closed{"server closed
session"}` to session 5's client.  The claim (and spec) says both are
ignored with the session remaining. -/
theorem c4_foreign_disconnect_removes_session :
    handleText exApp 3 9 ConnPhase.clientActive exReg
        (.cmsg (.disconnectSession 5)) =
      (ConnPhase.clientActive,
        { exReg with sessions := hmErase exReg.sessions 5 }, []) ∧
    hmFind (hmErase exReg.sessions 5) 5 = none ∧
    handleText exApp 4 0 (ConnPhase.serverActive "beta") exReg
        (.smsg (.serverDisconnectSession 5)) =
      (ConnPhase.serverActive "beta",
        { exReg with sessions := hmErase exReg.sessions 5 },
        [(2, ProxyToPeer.sessionClosed 5 "server closed session")]) :=
  ⟨by decide, by decide, by decide⟩

/-- C6: in every reachable registry state, both endpoint connection ids
of every live session are keys of the connection map. -/
theorem c6_session_endpoints_live {st : ProxyState} (h : Reach st) :
    ∀ sid sess, hmFind st.sessions sid = some sess →
      sess.server_conn_id ∈ st.connections ∧ sess.client_conn_id ∈ st.connections :=
  fun sid sess hf => (registryInv_of_reach h).2.2.2 sid sess hf

/-- Witness for C6: a concrete reachable state (attach 1, attach 2,
authenticate both, register "alpha", open session 5) in which session
5's endpoints 1 and 2 are in the connection map. -/
theorem c6_witness :
    hmFind exReach.sessions 5 =
      some { session_id := 5, server_conn_id := 1, client_conn_id := 2 } ∧
    (1 : Nat) ∈ exReach.connections ∧ (2 : Nat) ∈ exReach.connections := by
  have h0 : Reach ProxyState.new := Reach.init
  have h1 := Reach.attach 1 h0
  have h2 := Reach.attach 2 h1
  have h3 := Reach.msg exApp 1 0 ConnPhase.unauth
    (.cmsg (.authProxy "p" .server)) h2 (by decide)
  have h4 := Reach.msg exApp 2 0 ConnPhase.unauth
    (.cmsg (.authProxy "p" .client)) h3 (by decide)
  have h5 := Reach.msg exApp 1 0 ConnPhase.serverUnregistered
    (.cmsg (.registerServer "alpha" "s1")) h4 (by decide)
  have h6 := Reach.msg exApp 2 5 ConnPhase.clientActive
    (.cmsg (.connectServer "alpha" "s1" true)) h5 (by decide)
  have hr : Reach exReach := h6
  have hres := c6_session_endpoints_live hr 5
    { session_id := 5, server_conn_id := 1, client_conn_id := 2 } (by decide)
  exact ⟨by decide, hres.1, hres.2⟩

/-- C7: before authentication the only accepted message is a well-formed
`auth_proxy` with the correct proxy password.  A correct one stores the
role and answers `auth_ok`; a wrong password answers `auth_error`
"invalid proxy password" and the connection goes terminal (the loop
breaks, so the socket closes and `cleanup_connection` runs); any other
first message answers `auth_error` "first message must be auth_proxy"
and goes terminal.  In every pre-auth case the registry's servers and
sessions are untouched: no role-specific dispatch happens. -/
theorem c7_auth_gate (app : AppCfg) (c freshSid : Nat) (st : ProxyState)
    (t : InText) :
    (∀ pw r, t = .cmsg (.authProxy pw r) →
      (pw = app.proxy_password →
        handleText app c freshSid ConnPhase.unauth st t =
          (rolePhase r, { st with conn_roles := hmInsert st.conn_roles c r },
            [(c, ProxyToPeer.authOk r)])) ∧
      (pw ≠ app.proxy_password →
        handleText app c freshSid ConnPhase.unauth st t =
          (ConnPhase.terminal, st,
            [(c, ProxyToPeer.authError "invalid proxy password")]))) ∧
    ((∀ pw r, t ≠ .cmsg (.authProxy pw r)) →
      handleText app c freshSid ConnPhase.unauth st t =
        (ConnPhase.terminal, st,
          [(c, ProxyToPeer.authError "first message must be auth_proxy")])) := by
  constructor
  · rintro pw r rfl
    constructor
    · intro hpw
      simp [handleText, parseClientToProxy, hpw]
    · intro hpw
      simp [handleText, parseClientToProxy, hpw]
  · intro hne
    cases t with
    | cmsg m =>
      cases m with
      | authProxy pw r => exact absurd rfl (hne pw r)
      | registerServer a b => simp [handleText, parseClientToProxy]
      | listServers => simp [handleText, parseClientToProxy]
      | connectServer a b u => simp [handleText, parseClientToProxy]
      | clientCommand a b => simp [handleText, parseClientToProxy]
      | disconnectSession a => simp [handleText, parseClientToProxy]
    | smsg m => simp [handleText, parseClientToProxy]
    | relayData a b => simp [handleText, parseClientToProxy]
    | signalMsg a b => simp [handleText, parseClientToProxy]
    | serverSignal a b => simp [handleText, parseClientToProxy]
    | malformed => simp [handleText, parseClientToProxy]

/-- Witness for C7: a `list_servers` sent first is refused with "first
message must be auth_proxy", and a wrong password with "invalid proxy
password", both going terminal. -/
theorem c7_witness :
    (∀ pw r, InText.cmsg ClientToProxy.listServers ≠
      InText.cmsg (.authProxy pw r)) ∧
    handleText exApp 7 0 ConnPhase.unauth ProxyState.new (.cmsg .listServers) =
      (ConnPhase.terminal, ProxyState.new,
        [(7, ProxyToPeer.authError "first message must be auth_proxy")]) ∧
    handleText exApp 7 0 ConnPhase.unauth ProxyState.new
        (.cmsg (.authProxy "bad" .client)) =
      (ConnPhase.terminal, ProxyState.new,
        [(7, ProxyToPeer.authError "invalid proxy password")]) := by
  have hne : ∀ pw r, InText.cmsg ClientToProxy.listServers ≠
      InText.cmsg (.authProxy pw r) := by
    intro pw r h
    simp at h
  refine ⟨hne, ?_, ?_⟩
  · exact (c7_auth_gate exApp 7 0 ProxyState.new (.cmsg .listServers)).2 hne
  · exact ((c7_auth_gate exApp 7 0 ProxyState.new
      (.cmsg (.authProxy "bad" .client))).1 "bad" .client rfl).2 (by decide)

/-- C8: registering an already-taken name answers `connection_error`
"server name already registered", leaves the registry (and therefore the
existing registration) unchanged, and puts the requester in the terminal
phase (its loop breaks and the socket closes); registering a free name
inserts the registration owned by the requester and answers
`registered`. -/
theorem c8_duplicate_register (app : AppCfg) (c freshSid : Nat) (st : ProxyState)
    (name pw : String) :
    (∀ reg, hmFind st.servers name = some reg →
      handleText app c freshSid ConnPhase.serverUnregistered st
          (.cmsg (.registerServer name pw)) =
        (ConnPhase.terminal, st,
          [(c, ProxyToPeer.connectionError "server name already registered")])) ∧
    (hmFind st.servers name = none →
      handleText app c freshSid ConnPhase.serverUnregistered st
          (.cmsg (.registerServer name pw)) =
        (ConnPhase.serverActive name,
          { st with servers := hmInsert st.servers name ⟨c, pw⟩ },
          [(c, ProxyToPeer.registered name)])) := by
  constructor
  · intro reg hf
    simp [handleText, parseClientToProxy, hf]
  · intro hf
    simp [handleText, parseClientToProxy, hf]

/-- Witness for C8: connection 3 tries to register the taken name
"alpha" and is rejected with the existing registration intact. -/
theorem c8_witness :
    hmFind exReg.servers "alpha" =
      some { conn_id := 1, server_password := "s1" } ∧
    handleText exApp 3 0 ConnPhase.serverUnregistered exReg
        (.cmsg (.registerServer "alpha" "other")) =
      (ConnPhase.terminal, exReg,
        [(3, ProxyToPeer.connectionError "server name already registered")]) := by
  refine ⟨by decide, ?_⟩
  exact (c8_duplicate_register exApp 3 0 exReg "alpha" "other").1
    { conn_id := 1, server_password := "s1" } (by decide)

/-- C9 counterexample: the wire reason strings are "unknown server name"
and "invalid server password" (with spaces), not the claimed
`unknown_server_name` / `invalid_server_password`. -/
theorem c9_counterexample :
    (handleText exApp 2 7 ConnPhase.clientActive exReg
        (.cmsg (.connectServer "gamma" "x" false))).2.2 =
      [(2, ProxyToPeer.connectionError "unknown server name")] ∧
    "unknown server name" ≠ "unknown_server_name" ∧
    (handleText exApp 2 7 ConnPhase.clientActive exReg
        (.cmsg (.connectServer "alpha" "bad" false))).2.2 =
      [(2, ProxyToPeer.connectionError "invalid server password")] ∧
    "invalid server password" ≠ "invalid_server_password" :=
  ⟨by decide, by decide, by decide, by decide⟩

/-- C9 (amended): a `connect_server` naming an unregistered server
answers `connection_error{"unknown server name"}` to the requester only;
one with a password not byte-equal to the registration's answers
`connection_error{"invalid server password"}`; in both failure cases the
registry is unchanged and the connection stays in the client-active
phase (it is not closed); on success a session keyed by the fresh id is
inserted and `connected` / `client_connected` are sent. -/
theorem c9_connect_server_outcomes (app : AppCfg) (c freshSid : Nat)
    (st : ProxyState) (name pw : String) (useP2p : Bool) :
    (hmFind st.servers name = none →
      handleText app c freshSid ConnPhase.clientActive st
          (.cmsg (.connectServer name pw useP2p)) =
        (ConnPhase.clientActive, st,
          [(c, ProxyToPeer.connectionError "unknown server name")])) ∧
    (∀ server, hmFind st.servers name = some server →
      server.server_password ≠ pw →
      handleText app c freshSid ConnPhase.clientActive st
          (.cmsg (.connectServer name pw useP2p)) =
        (ConnPhase.clientActive, st,
          [(c, ProxyToPeer.connectionError "invalid server password")])) ∧
    (∀ server, hmFind st.servers name = some server →
      server.server_password = pw →
      handleText app c freshSid ConnPhase.clientActive st
          (.cmsg (.connectServer name pw useP2p)) =
        (ConnPhase.clientActive,
          { st with sessions :=
            hmInsert st.sessions freshSid ⟨freshSid, server.conn_id, c⟩ },
          [(c, ProxyToPeer.connected freshSid name useP2p
              (if useP2p then some app.turn else none)),
            (server.conn_id, ProxyToPeer.clientConnected freshSid c)])) := by
  refine ⟨?_, ?_, ?_⟩
  · intro hf
    simp [handleText, parseClientToProxy, hf]
  · intro server hf hpw
    simp [handleText, parseClientToProxy, hf, hpw]
  · intro server hf hpw
    simp [handleText, parseClientToProxy, hf, hpw]

/-- Witness for the amended C9: an unknown name is refused with the
connection surviving in the client-active phase. -/
theorem c9_witness :
    hmFind exReg.servers "gamma" = none ∧
    handleText exApp 2 7 ConnPhase.clientActive exReg
        (.cmsg (.connectServer "gamma" "x" false)) =
      (ConnPhase.clientActive, exReg,
        [(2, ProxyToPeer.connectionError "unknown server name")]) := by
  refine ⟨by decide, ?_⟩
  exact (c9_connect_server_outcomes exApp 2 7 exReg "gamma" "x" false).1 (by decide)

/-- C10: `handle_rpc` is total — for every request and every oracle
outcome it returns exactly one response (it is a function into
`RpcResponse`), that response carries the request's own `request_id`,
and operational failures are mapped into the response: a failed spawn
becomes the error string inside `CommandOutput`, and failed directory
listing, file read, or write become `RpcResult.error`. -/
theorem c10_handle_rpc_total (w : FsWorld) (req : RpcRequest) :
    (handle_rpc w req).request_id = req.request_id ∧
    (∀ cmd e, req.action = .runCommand cmd → w.runCmd cmd = .error e →
      (handle_rpc w req).result =
        .commandOutput ("command execution failed: " ++ e)) ∧
    (∀ path e, req.action = .listDirectory path → w.readDir path = .error e →
      (handle_rpc w req).result = .error e) ∧
    (∀ path e, req.action = .readFile path → w.readToString path = .error e →
      (handle_rpc w req).result = .error e) ∧
    (∀ path content e, req.action = .writeFile path content →
      writeFileResult w path content = .error e →
      (handle_rpc w req).result = .error e) := by
  refine ⟨rfl, ?_, ?_, ?_, ?_⟩
  · intro cmd e ha he
    simp [handle_rpc, ha, execute_command, he]
  · intro path e ha he
    simp [handle_rpc, ha, list_directory, he]
  · intro path e ha he
    simp [handle_rpc, ha, he]
  · intro path content e ha he
    simp [handle_rpc, ha, he]

/-- Witness for C10: a `read_file` against the all-failing oracle keeps
the request id 42 and maps the failure into `RpcResult.error`. -/
theorem c10_witness :
    (⟨42, RpcAction.readFile "/tmp/x"⟩ : RpcRequest).action =
      RpcAction.readFile "/tmp/x" ∧
    exWorld.readToString "/tmp/x" = .error "no such file" ∧
    (handle_rpc exWorld ⟨42, RpcAction.readFile "/tmp/x"⟩).request_id = 42 ∧
    (handle_rpc exWorld ⟨42, RpcAction.readFile "/tmp/x"⟩).result =
      .error "no such file" := by
  have h := c10_handle_rpc_total exWorld ⟨42, RpcAction.readFile "/tmp/x"⟩
  exact ⟨rfl, rfl, h.1, h.2.2.2.1 "/tmp/x" "no such file" rfl rfl⟩

end RsPeerWorkspace
